import Mathlib

/-!
Shallow embedding of the dfttopif parser core, translated from
`dfttopif/parsers/base.py` and `dfttopif/parsers/gpaw.py`: the pypif value
containers, the derived capabilities of `DFTParser`, the convergence cache,
the settings/results registries, GPAW output-file resolution and
construction, and the temporary ase-db side effects of `GpawParser`.
Python float arithmetic is modelled exactly over `ℚ`; fallible Python code
is modelled with `Except`/`Option`.
-/

namespace PifDft

/-- A scalar payload as stored in a pypif `Scalar(value=...)`. Python stores
heterogeneous values; this enumerates the kinds produced by the embedded
code (numbers, strings, booleans, `None`). -/
inductive PifScalar where
  | ofQ (q : ℚ)
  | ofStr (s : String)
  | ofBool (b : Bool)
  | ofNone
deriving DecidableEq, Repr

/-- A pypif `Property(scalars=[...], units=...)`: a list of scalar payloads
plus an optional unit string (also the shape of a `Value` carrying
scalars). -/
structure Property where
  scalars : List PifScalar
  units : Option String
deriving DecidableEq, Repr

/-- A pypif `Value(...)` as used by the presence adapter; `Value()` built
with no arguments has every field equal to `None`. -/
structure PifValue where
  scalars : Option (List PifScalar)
  units : Option String
deriving DecidableEq, Repr

/-- Python `Value()`: the blank, content-free value. -/
def PifValue.blank : PifValue := ⟨none, none⟩

/-- The slice of an `ase.Atoms` object read by the embedded capabilities:
per-atom chemical symbols (`get_chemical_symbols`), per-atom masses
(`get_masses`), the cell volume (`get_volume`), and the calculator results
(total energy, maximum force) that `ase.db` stores alongside the
structure. -/
structure Atoms where
  symbols : List String
  masses : List ℚ
  volume : ℚ
  energy : ℚ
  fmax : ℚ
deriving DecidableEq, Repr

/-! ## Python string ordering

Python's `sorted` compares strings lexicographically by Unicode code
point; this is embedded as a computable Boolean relation. -/

/-- Lexicographic less-or-equal on character lists, comparing code points,
as Python compares strings. -/
def charListLe : List Char → List Char → Bool
  | [], _ => true
  | _ :: _, [] => false
  | a :: as, b :: bs =>
    if a.toNat < b.toNat then true
    else if b.toNat < a.toNat then false
    else charListLe as bs

/-- Python string less-or-equal: lexicographic on code points. -/
def strLe (a b : String) : Bool := charListLe a.data b.data

theorem charListLe_total : ∀ x y : List Char, charListLe x y = true ∨ charListLe y x = true := by
  intro x
  induction x with
  | nil => intro y; left; rfl
  | cons a as ih =>
    intro y
    cases y with
    | nil => right; rfl
    | cons b bs =>
      by_cases hab : a.toNat < b.toNat
      · left; simp [charListLe, hab]
      · by_cases hba : b.toNat < a.toNat
        · right; simp [charListLe, hba]
        · rcases ih bs with h | h
          · left; simpa [charListLe, hab, hba] using h
          · right; simpa [charListLe, hab, hba] using h

theorem charListLe_trans :
    ∀ x y z : List Char, charListLe x y = true → charListLe y z = true →
      charListLe x z = true := by
  intro x
  induction x with
  | nil => intro y z _ _; rfl
  | cons a as ih =>
    intro y z hxy hyz
    cases y with
    | nil => simp [charListLe] at hxy
    | cons b bs =>
      cases z with
      | nil => simp [charListLe] at hyz
      | cons c cs =>
        simp only [charListLe] at hxy hyz ⊢
        by_cases hab : a.toNat < b.toNat
        · by_cases hbc : b.toNat < c.toNat
          · rw [if_pos (show a.toNat < c.toNat by omega)]
          · by_cases hcb : c.toNat < b.toNat
            · rw [if_neg hbc, if_pos hcb] at hyz
              exact absurd hyz (by simp)
            · rw [if_pos (show a.toNat < c.toNat by omega)]
        · by_cases hba : b.toNat < a.toNat
          · rw [if_neg hab, if_pos hba] at hxy
            exact absurd hxy (by simp)
          · rw [if_neg hab, if_neg hba] at hxy
            by_cases hbc : b.toNat < c.toNat
            · rw [if_pos (show a.toNat < c.toNat by omega)]
            · by_cases hcb : c.toNat < b.toNat
              · rw [if_neg hbc, if_pos hcb] at hyz
                exact absurd hyz (by simp)
              · rw [if_neg hbc, if_neg hcb] at hyz
                rw [if_neg (show ¬a.toNat < c.toNat by omega),
                  if_neg (show ¬c.toNat < a.toNat by omega)]
                exact ih bs cs hxy hyz

theorem char_eq_of_toNat_eq {a b : Char} (h : a.toNat = b.toNat) : a = b :=
  Char.eq_of_val_eq (UInt32.ext h)

theorem charListLe_antisymm :
    ∀ x y : List Char, charListLe x y = true → charListLe y x = true → x = y := by
  intro x
  induction x with
  | nil =>
    intro y _ hyx
    cases y with
    | nil => rfl
    | cons b bs => simp [charListLe] at hyx
  | cons a as ih =>
    intro y hxy hyx
    cases y with
    | nil => simp [charListLe] at hxy
    | cons b bs =>
      simp only [charListLe] at hxy hyx
      by_cases hab : a.toNat < b.toNat
      · rw [if_neg (show ¬b.toNat < a.toNat by omega), if_pos hab] at hyx
        exact absurd hyx (by simp)
      · by_cases hba : b.toNat < a.toNat
        · rw [if_neg hab, if_pos hba] at hxy
          exact absurd hxy (by simp)
        · rw [if_neg hab, if_neg hba] at hxy
          rw [if_neg hba, if_neg hab] at hyx
          have hcc : a = b := char_eq_of_toNat_eq (by omega)
          rw [hcc, ih bs hxy hyx]

instance : DecidableRel (fun a b : String => strLe a b = true) :=
  fun _ _ => instDecidableEqBool _ _

instance : IsTotal String (fun a b : String => strLe a b = true) :=
  ⟨fun a b => charListLe_total a.data b.data⟩

instance : IsTrans String (fun a b : String => strLe a b = true) :=
  ⟨fun a b c => charListLe_trans a.data b.data c.data⟩

instance : IsAntisymm String (fun a b : String => strLe a b = true) :=
  ⟨fun a b h1 h2 => by
    cases a; cases b
    exact congrArg String.mk (charListLe_antisymm _ _ h1 h2)⟩

/-! ## Composition (`DFTParser.get_composition`, base.py lines 137-146) -/

/-- Embeds `DFTParser.get_composition`: `counts = Counter(strc.get_chemical_symbols())`
followed by `''.join(k if counts[k]==1 else '%s%d'%(k,counts[k]) for k in sorted(counts))`.
A `Counter`'s keys are the distinct symbols; `sorted` orders them
lexicographically, so the Counter's insertion order is irrelevant. -/
def get_composition (symbols : List String) : String :=
  let sortedKeys := symbols.dedup.insertionSort (fun a b => strLe a b = true)
  String.join (sortedKeys.map fun k =>
    if symbols.count k = 1 then k else k ++ toString (symbols.count k))

/-- The composition rule as the specification words it: iterate the distinct
species symbols in lexical (sorted) order, growing the formula string by the
bare symbol when its count is exactly one and by the symbol concatenated
with its count otherwise. -/
def compositionSpec (symbols : List String) : String :=
  (symbols.dedup.insertionSort (fun a b => strLe a b = true)).foldl
    (fun acc k =>
      acc ++ (if symbols.count k = 1 then k else k ++ toString (symbols.count k))) ""

/-- C5: `get_composition` yields "H2" on species [H, H] and "Fe2O3" on
species [Fe, Fe, O, O, O]; it equals the specification's formula rule; and
it depends only on the multiset of species (iteration is over distinct
symbols in sorted order with their counts). -/
theorem claim_C5_composition :
    get_composition ["H", "H"] = "H2" ∧
    get_composition ["Fe", "Fe", "O", "O", "O"] = "Fe2O3" ∧
    (∀ symbols : List String, get_composition symbols = compositionSpec symbols) ∧
    ∀ l₁ l₂ : List String, l₁.Perm l₂ → get_composition l₁ = get_composition l₂ := by
  refine ⟨by decide, by decide, fun symbols => ?_, fun l₁ l₂ h => ?_⟩
  · simp only [get_composition, compositionSpec, String.join, List.foldl_map]
  · have hsort :
        l₁.dedup.insertionSort (fun a b : String => strLe a b = true) =
        l₂.dedup.insertionSort (fun a b : String => strLe a b = true) := by
      apply List.eq_of_perm_of_sorted
        (r := fun a b : String => strLe a b = true)
      · exact (List.perm_insertionSort _ _).trans
          (h.dedup.trans (List.perm_insertionSort _ _).symm)
      · exact List.sorted_insertionSort _ _
      · exact List.sorted_insertionSort _ _
    simp only [get_composition, hsort]
    congr 1
    apply List.map_congr_left
    intro k _
    rw [h.count_eq]

theorem claim_C5_composition_witness :
    List.Perm ["O", "H", "H"] ["H", "O", "H"] ∧
    get_composition ["O", "H", "H"] = get_composition ["H", "O", "H"] :=
  ⟨by decide, claim_C5_composition.2.2.2 _ _ (by decide)⟩

/-! ## Presence adapter (`Value_if_true`, base.py lines 6-9) -/

/-- Python `x == True` where `x` is an optional boolean: `None == True` and
`False == True` are both `False`. -/
def pyEqTrue : Option Bool → Bool
  | some b => b
  | none => false

/-- Embeds `Value_if_true` (base.py): `lambda x: Value() if func(x) == True else None`,
where the wrapped detection `func` returns a boolean or `None`. -/
def Value_if_true {α : Type} (func : α → Option Bool) (x : α) : Option PifValue :=
  if pyEqTrue (func x) then some PifValue.blank else none

/-- C9: for every capability wrapped by `Value_if_true` and every input, a
detection result of exactly `True` becomes the blank present marker
`Value()`, while `False` and `None` both become absence (`None`). -/
theorem claim_C9_presence_adapter {α : Type} (func : α → Option Bool) (x : α) :
    (func x = some true → Value_if_true func x = some PifValue.blank) ∧
    (func x = some false → Value_if_true func x = none) ∧
    (func x = none → Value_if_true func x = none) := by
  refine ⟨fun h => ?_, fun h => ?_, fun h => ?_⟩ <;>
    simp [Value_if_true, pyEqTrue, h]

theorem claim_C9_presence_adapter_witness :
    Value_if_true (fun _ : Unit => some true) () = some PifValue.blank ∧
    Value_if_true (fun _ : Unit => some false) () = none ∧
    Value_if_true (fun _ : Unit => none) () = none :=
  ⟨(claim_C9_presence_adapter (fun _ : Unit => some true) ()).1 rfl,
   (claim_C9_presence_adapter (fun _ : Unit => some false) ()).2.1 rfl,
   (claim_C9_presence_adapter (fun _ : Unit => none) ()).2.2 rfl⟩

/-! ## Convergence caching (`DFTParser.is_converged`, base.py lines 196-205;
`GpawParser.is_converged`, gpaw.py line 248) -/

/-- One call of `DFTParser.is_converged`: when the cached `_converged` is
still `None`, invoke `_is_converged` (whose documented contract returns a
boolean, here the parameter `det`) and store the result; then return a
`Property` wrapping the cached boolean. The result records the returned
property, the new cache, and how many times `_is_converged` ran during
this call. -/
def is_converged_step (det : Bool) (cache : Option Bool) :
    Property × Option Bool × Nat :=
  match cache with
  | none => (⟨[PifScalar.ofBool det], none⟩, some det, 1)
  | some b => (⟨[PifScalar.ofBool b], none⟩, some b, 0)

/-- Run `k` successive calls of `is_converged` on one instance whose cache
starts at `cache`, collecting the returned properties and the total number
of `_is_converged` invocations. -/
def is_converged_run (det : Bool) : Nat → Option Bool → List Property × Nat
  | 0, _ => ([], 0)
  | Nat.succ k, cache =>
    let s := is_converged_step det cache
    let r := is_converged_run det k s.2.1
    (s.1 :: r.1, s.2.2 + r.2)

/-- Embeds `GpawParser.is_converged` (gpaw.py): a placeholder override
returning `None`, never consulting any detection routine. -/
def gpaw_is_converged : Option Property := none

theorem is_converged_run_cached (det b : Bool) :
    ∀ k, is_converged_run det k (some b) =
      (List.replicate k ⟨[PifScalar.ofBool b], none⟩, 0) := by
  intro k
  induction k with
  | zero => rfl
  | succ k ih => simp [is_converged_run, is_converged_step, ih, List.replicate]

/-- C2: on a freshly constructed instance (cache `None`), any number of
`is_converged` calls all return the identical property and the underlying
`_is_converged` detection runs at most once in total; the GPAW override
returns `None` on every call and never invokes detection. -/
theorem claim_C2_memoized_convergence (det : Bool) (k : Nat) :
    (is_converged_run det k none).1 =
      List.replicate k ⟨[PifScalar.ofBool det], none⟩ ∧
    (is_converged_run det k none).2 ≤ 1 ∧
    gpaw_is_converged = none := by
  refine ⟨?_, ?_, rfl⟩ <;> cases k with
  | zero => simp [is_converged_run]
  | succ k =>
    simp [is_converged_run, is_converged_step, is_converged_run_cached,
      List.replicate]

/-! ## Registries (`get_setting_functions` / `get_result_functions`,
base.py lines 68-113 and gpaw.py lines 110-118) -/

/-- Embeds `DFTParser.get_setting_functions`: the ordered tag-to-method
dictionary for settings. -/
def base_setting_functions : List (String × String) :=
  [("XC Functional", "get_xc_functional"),
   ("Relaxed", "is_relaxed"),
   ("Cutoff Energy", "get_cutoff_energy"),
   ("k-Points per Reciprocal Atom", "get_KPPRA"),
   ("Spin-Orbit Coupling", "uses_SOC"),
   ("DFT+U", "get_U_settings"),
   ("vdW Interactions", "get_vdW_settings"),
   ("Pseudopotentials", "get_pp_name"),
   ("INCAR", "get_incar"),
   ("POSCAR", "get_poscar")]

/-- Embeds `DFTParser.get_result_functions`: the ordered tag-to-method
dictionary for results. -/
def base_result_functions : List (String × String) :=
  [("Converged", "is_converged"),
   ("Total Energy", "get_total_energy"),
   ("Band Gap Energy", "get_band_gap"),
   ("Pressure", "get_pressure"),
   ("Density of States", "get_dos"),
   ("Positions", "get_positions"),
   ("Forces", "get_forces"),
   ("Total force", "get_total_force"),
   ("Density", "get_density"),
   ("OUTCAR", "get_outcar"),
   ("Total magnetization", "get_total_magnetization"),
   ("Stresses", "get_stresses"),
   ("Number of atoms", "get_number_of_atoms"),
   ("Initial volume", "get_initial_volume"),
   ("Final volume", "get_final_volume")]

/-- Embeds `GpawParser.get_setting_functions`: the base dictionary plus two
new tags appended by item assignment (both keys are absent from the base
dictionary, so Python dict assignment appends them in order). -/
def gpaw_setting_functions : List (String × String) :=
  base_setting_functions ++
    [("Grid Spacing", "get_grid_spacing"),
     ("Calculation Mode", "get_calc_mode")]

/-- Embeds `GpawParser.get_result_functions`: returns the base dictionary
unchanged. -/
def gpaw_result_functions : List (String × String) :=
  base_result_functions

/-- C3: every tag of the base settings registry is present in the GPAW
subclass settings registry, and likewise for the results registries —
subclassing only adds entries, it never removes a tag. -/
theorem claim_C3_registry_superset (tag : String) :
    (tag ∈ base_setting_functions.map Prod.fst →
      tag ∈ gpaw_setting_functions.map Prod.fst) ∧
    (tag ∈ base_result_functions.map Prod.fst →
      tag ∈ gpaw_result_functions.map Prod.fst) := by
  constructor
  · intro h
    simp only [gpaw_setting_functions, List.map_append, List.mem_append]
    exact Or.inl h
  · intro h
    exact h

theorem claim_C3_registry_superset_witness :
    ("XC Functional" ∈ base_setting_functions.map Prod.fst ∧
      "XC Functional" ∈ gpaw_setting_functions.map Prod.fst) ∧
    ("Converged" ∈ base_result_functions.map Prod.fst ∧
      "Converged" ∈ gpaw_result_functions.map Prod.fst) :=
  ⟨⟨by decide, (claim_C3_registry_superset "XC Functional").1 (by decide)⟩,
   ⟨by decide, (claim_C3_registry_superset "Converged").2 (by decide)⟩⟩

/-! ## Density (`DFTParser.get_density`, base.py lines 148-152;
`GpawParser.get_density`, gpaw.py line 256) -/

/-- Python exceptions surfaced by the embedded capability code. -/
inductive PyErr where
  | attributeError
  | keyError
deriving DecidableEq, Repr

/-- The literal conversion constant `1.660539040` of `get_density`. -/
def densityConversion : ℚ := 1660539040 / 1000000000

/-- Embeds `DFTParser.get_density`: `sum(strc.get_masses()) / strc.get_volume() * 1.660539040`
wrapped as a `Property` with units `"g/(cm^3)"`. When `get_output_structure()`
returns `None`, the attribute access `None.get_masses()` raises an
`AttributeError` — there is no absence check in the source. -/
def base_get_density (strc : Option Atoms) : Except PyErr Property :=
  match strc with
  | none => Except.error PyErr.attributeError
  | some s =>
    Except.ok ⟨[PifScalar.ofQ (s.masses.sum / s.volume * densityConversion)],
      some "g/(cm^3)"⟩

/-- Embeds `GpawParser.get_output_structure`: returns `self.atoms`, which a
successfully constructed instance always holds. -/
def gpaw_get_output_structure (selfAtoms : Atoms) : Option Atoms :=
  some selfAtoms

/-- Embeds `GpawParser.get_density` (under the source's function
placeholders): `return None`, regardless of the available structure. -/
def gpaw_get_density (_selfAtoms : Atoms) : Option Property :=
  none

/-- Two hydrogen atoms in a cubic cell: a concrete structure used as input
for counterexamples and witnesses. -/
def exAtomsH2 : Atoms :=
  ⟨["H", "H"], [1008 / 1000, 1008 / 1000], 8, -8, 1 / 2⟩

/-- C4 counterexample: a GPAW parser with an available output structure on
which `get_density` returns `None` instead of the derived mass/volume
property — the derived computation is not shared by this concrete parser —
and the base implementation raises on a missing structure instead of
propagating absence. -/
theorem claim_C4_counterexample :
    gpaw_get_output_structure exAtomsH2 = some exAtomsH2 ∧
    gpaw_get_density exAtomsH2 = none ∧
    gpaw_get_density exAtomsH2 ≠
      some ⟨[PifScalar.ofQ (exAtomsH2.masses.sum / exAtomsH2.volume * densityConversion)],
        some "g/(cm^3)"⟩ ∧
    base_get_density none = Except.error PyErr.attributeError := by
  refine ⟨rfl, rfl, ?_, rfl⟩
  intro h
  exact Option.noConfusion h

/-- C4 amended: the base-class `get_density` returns the scalar
M / V × 1.660539040 tagged "g/(cm^3)" when given a structure of total mass
M and volume V; with no structure it raises an `AttributeError` rather
than returning absence; and `GpawParser` overrides `get_density` with a
placeholder that always returns `None`, so the derived computation is not
shared by that concrete parser. -/
theorem claim_C4_density (a : Atoms) :
    base_get_density (some a) =
      Except.ok ⟨[PifScalar.ofQ (a.masses.sum / a.volume * densityConversion)],
        some "g/(cm^3)"⟩ ∧
    base_get_density none = Except.error PyErr.attributeError ∧
    gpaw_get_density a = none :=
  ⟨rfl, rfl, rfl⟩

/-! ## Atom count (`DFTParser.get_number_of_atoms`, base.py lines 296-304) -/

/-- Python truthiness of `not strc` where `strc` is `None` or an
`ase.Atoms`: true when `strc` is `None`, and also when the structure has
zero atoms, because `Atoms` exposes `__len__` and defines no `__bool__`. -/
def pyNotAtoms : Option Atoms → Bool
  | none => true
  | some s => decide (s.symbols.length = 0)

/-- Embeds `DFTParser.get_number_of_atoms`: `if not strc: return None`,
otherwise a scalar property `len(strc)` with units `"/unit cell"`. -/
def get_number_of_atoms (strc : Option Atoms) : Option Property :=
  if pyNotAtoms strc then none
  else
    match strc with
    | none => none
    | some s => some ⟨[PifScalar.ofQ (s.symbols.length : ℚ)], some "/unit cell"⟩

/-- A structure with zero atoms (constructible in ase as `Atoms()`). -/
def exAtomsEmpty : Atoms := ⟨[], [], 1, 0, 0⟩

/-- C7 counterexample: on an available structure with zero atoms,
`get_number_of_atoms` returns the absence marker `None`, not a
zero-valued count — `if not strc` conflates the empty structure with
absence. -/
theorem claim_C7_counterexample :
    get_number_of_atoms (some exAtomsEmpty) = none ∧
    get_number_of_atoms (some exAtomsEmpty) ≠
      some ⟨[PifScalar.ofQ 0], some "/unit cell"⟩ := by
  refine ⟨rfl, ?_⟩
  intro h
  exact Option.noConfusion h

/-- C7 amended: `get_number_of_atoms` returns the atom count whenever a
structure with at least one atom is available, and returns the absence
marker both when no structure is available and when the available
structure has zero atoms. -/
theorem claim_C7_atom_count (s : Atoms) (h : 0 < s.symbols.length) :
    get_number_of_atoms (some s) =
      some ⟨[PifScalar.ofQ (s.symbols.length : ℚ)], some "/unit cell"⟩ ∧
    get_number_of_atoms none = none ∧
    ∀ t : Atoms, t.symbols.length = 0 → get_number_of_atoms (some t) = none := by
  refine ⟨?_, rfl, fun t ht => ?_⟩
  · simp [get_number_of_atoms, pyNotAtoms, Nat.pos_iff_ne_zero.mp h]
  · simp [get_number_of_atoms, pyNotAtoms, ht]

theorem claim_C7_atom_count_witness :
    0 < exAtomsH2.symbols.length ∧
    get_number_of_atoms (some exAtomsH2) =
      some ⟨[PifScalar.ofQ (exAtomsH2.symbols.length : ℚ)], some "/unit cell"⟩ :=
  ⟨by decide, (claim_C7_atom_count exAtomsH2 (by decide)).1⟩

/-! ## Output-file resolution (`GpawParser._find_output`, gpaw.py lines
81-98, and `GpawParser.__init__`, gpaw.py lines 20-33) -/

/-- The outcome of `ase.io.read(f)` on a candidate file: a structure, or a
raised exception. The source catches exactly `InvalidULMFileError` and
`OSError`; `ase.io.read` is an external service that can also raise other
exceptions (e.g. `UnknownFileTypeError` on unrecognizable content), kept
here as `failOther`. -/
inductive ReadOutcome where
  | ok (a : Atoms)
  | failUlm
  | failOs
  | failOther
deriving DecidableEq, Repr

/-- A candidate file as `_find_output` sees it: its basename (the only part
of the path the resolution inspects) and the fixed outcome of reading it
(the files are static, so every read of the same file agrees). -/
structure PFile where
  base : String
  readRes : ReadOutcome
deriving DecidableEq, Repr

/-- Python `str.split('.')` on a character list: splits at every dot; the
result always has at least one piece (`''.split('.') == ['']`). -/
def splitOnDot : List Char → List (List Char)
  | [] => [[]]
  | c :: cs =>
    let r := splitOnDot cs
    if c = '.' then [] :: r
    else
      match r with
      | [] => [[c]]
      | s :: ss => (c :: s) :: ss

/-- Python `os.path.basename(f).split('.')[-1]`. -/
def fileExt (f : PFile) : String := String.mk ((splitOnDot f.base.data).getLastD [])

/-- Structural decidable equality for `Except`, so concrete resolution
outcomes can be evaluated. -/
instance exceptDecEq {ε α : Type} [DecidableEq ε] [DecidableEq α] :
    DecidableEq (Except ε α)
  | Except.ok a, Except.ok b =>
    if h : a = b then isTrue (by rw [h]) else isFalse fun hh => h (Except.ok.inj hh)
  | Except.ok _, Except.error _ => isFalse fun hh => Except.noConfusion hh
  | Except.error _, Except.ok _ => isFalse fun hh => Except.noConfusion hh
  | Except.error d, Except.error e =>
    if h : d = e then isTrue (by rw [h]) else isFalse fun hh => h (Except.error.inj hh)

/-- Exceptions propagating out of GPAW parser construction. -/
inductive PyExc where
  | invalidIngester (msg : String)
  | readRaised (e : ReadOutcome)
deriving DecidableEq, Repr

/-- The loop of `GpawParser._find_output` over the remaining candidate
files, carrying the `out_file` accumulator: an exact basename
`output.<fmt>` is selected without being read; otherwise a file whose last
extension is `<fmt>` is test-read — on success a previously selected file
triggers the Ambiguity `InvalidIngesterException`, an `InvalidULMFileError`
or `OSError` is swallowed (`pass`), and any other read exception
propagates. -/
def find_output_from (fmt : String) : List PFile → Option PFile → Except PyExc (Option PFile)
  | [], out_file => Except.ok out_file
  | f :: rest, out_file =>
    if f.base = "output." ++ fmt then
      find_output_from fmt rest (some f)
    else if fileExt f = fmt then
      match f.readRes with
      | ReadOutcome.ok _ =>
        match out_file with
        | some _ =>
          Except.error (PyExc.invalidIngester
            ("Found more than one valid " ++ fmt ++ " file"))
        | none => find_output_from fmt rest (some f)
      | ReadOutcome.failUlm => find_output_from fmt rest out_file
      | ReadOutcome.failOs => find_output_from fmt rest out_file
      | ReadOutcome.failOther => Except.error (PyExc.readRaised ReadOutcome.failOther)
    else
      find_output_from fmt rest out_file

/-- Embeds `GpawParser._find_output(fmt)`: the loop started with
`out_file = None`. -/
def find_output (fmt : String) (files : List PFile) : Except PyExc (Option PFile) :=
  find_output_from fmt files none

/-- Whether a read attempt produced a structure. -/
def readOk (f : PFile) : Bool :=
  match f.readRes with
  | ReadOutcome.ok _ => true
  | _ => false

/-- A candidate matches the role `<fmt>` when it carries the exact
canonical basename `output.<fmt>`, or its last extension is `<fmt>` and it
reads successfully. -/
def matchesRole (fmt : String) (f : PFile) : Bool :=
  decide (f.base = "output." ++ fmt) || (decide (fileExt f = fmt) && readOk f)

/-- A candidate that matches the role via its extension and a successful
read, without carrying the canonical basename. -/
def nonExactValidMatch (fmt : String) (f : PFile) : Bool :=
  decide (¬f.base = "output." ++ fmt) && decide (fileExt f = fmt) && readOk f

/-- Reading the selected output file at construction time
(`read(self.output_traj)` / `read(self.output_txt)`): any read failure
propagates, nothing is caught there. -/
def read_file (f : PFile) : Except PyExc Atoms :=
  match f.readRes with
  | ReadOutcome.ok a => Except.ok a
  | e => Except.error (PyExc.readRaised e)

/-- The state a `GpawParser` holds after the file-resolution part of
`__init__` (gpaw.py lines 20-33): the selected trajectory file, the
selected text log, and the structure read from the preferred one. -/
structure GpawParserState where
  output_traj : Option PFile
  output_txt : Option PFile
  atoms : Atoms
deriving DecidableEq, Repr

/-- Embeds the file-resolution part of `GpawParser.__init__` (gpaw.py lines
20-33): resolve the "traj" role, then the "txt" role, read the trajectory
if one was selected, else the text log, and raise the
`InvalidIngesterException('Failed to find output file')` when neither role
resolved. -/
def gpaw_init (files : List PFile) : Except PyExc GpawParserState :=
  match find_output "traj" files with
  | Except.error e => Except.error e
  | Except.ok output_traj =>
    match find_output "txt" files with
    | Except.error e => Except.error e
    | Except.ok output_txt =>
      match output_traj with
      | some t => (read_file t).map fun a => ⟨output_traj, output_txt, a⟩
      | none =>
        match output_txt with
        | some t => (read_file t).map fun a => ⟨output_traj, output_txt, a⟩
        | none => Except.error (PyExc.invalidIngester "Failed to find output file")

/-! ### C1: ambiguity policy -/

/-- A readable trajectory file without the canonical name. -/
def exTrajA : PFile := ⟨"a.traj", ReadOutcome.ok exAtomsH2⟩

/-- A readable trajectory file with the canonical name `output.traj`. -/
def exTrajOut : PFile := ⟨"output.traj", ReadOutcome.ok exAtomsH2⟩

/-- C1 counterexample: two files that each independently match the "traj"
role (both readable trajectories). With the canonical-named file examined
second, resolution silently selects it and raises nothing; with the order
reversed, the Ambiguity exception is raised — so resolution is order
dependent and can be silently decided. -/
theorem claim_C1_counterexample :
    matchesRole "traj" exTrajA = true ∧
    matchesRole "traj" exTrajOut = true ∧
    find_output "traj" [exTrajA, exTrajOut] = Except.ok (some exTrajOut) ∧
    find_output "traj" [exTrajOut, exTrajA] =
      Except.error (PyExc.invalidIngester
        ("Found more than one valid " ++ "traj" ++ " file")) := by
  refine ⟨by decide, by decide, rfl, rfl⟩

theorem find_output_from_ambiguity (fmt : String) :
    ∀ (files : List PFile) (acc : Option PFile),
      (∀ f ∈ files, f.readRes ≠ ReadOutcome.failOther) →
      (2 ≤ files.countP (nonExactValidMatch fmt) →
        find_output_from fmt files acc =
          Except.error (PyExc.invalidIngester
            ("Found more than one valid " ++ fmt ++ " file"))) ∧
      (1 ≤ files.countP (nonExactValidMatch fmt) → acc.isSome = true →
        find_output_from fmt files acc =
          Except.error (PyExc.invalidIngester
            ("Found more than one valid " ++ fmt ++ " file"))) := by
  intro files
  induction files with
  | nil =>
    intro acc _
    constructor <;> intro hc <;> rw [List.countP_nil] at hc
    · exact absurd hc (by omega)
    · exact absurd hc (by omega)
  | cons f rest ih =>
    intro acc h
    have hf : f.readRes ≠ ReadOutcome.failOther := h f (by simp)
    have hrest : ∀ g ∈ rest, g.readRes ≠ ReadOutcome.failOther :=
      fun g hg => h g (List.mem_cons_of_mem f hg)
    by_cases hb : f.base = "output." ++ fmt
    · have hm : nonExactValidMatch fmt f = false := by
        simp [nonExactValidMatch, hb]
      constructor <;> intro hc
      · simp only [List.countP_cons, hm, if_false, Bool.false_eq_true,
          Nat.add_zero] at hc
        simp only [find_output_from, if_pos hb]
        exact (ih (some f) hrest).1 hc
      · intro _
        simp only [List.countP_cons, hm, if_false, Bool.false_eq_true,
          Nat.add_zero] at hc
        simp only [find_output_from, if_pos hb]
        exact (ih (some f) hrest).2 hc rfl
    · by_cases he : fileExt f = fmt
      · cases hr : f.readRes with
        | ok a =>
          have hm : nonExactValidMatch fmt f = true := by
            simp [nonExactValidMatch, hb, he, readOk, hr]
          cases acc with
          | some a0 =>
            constructor <;> intro hc
            · simp only [find_output_from, if_neg hb, if_pos he, hr]
            · intro _
              simp only [find_output_from, if_neg hb, if_pos he, hr]
          | none =>
            constructor <;> intro hc
            · simp only [List.countP_cons, hm, if_true] at hc
              simp only [find_output_from, if_neg hb, if_pos he, hr]
              exact (ih (some f) hrest).2 (by omega) rfl
            · intro hsome
              simp at hsome
        | failUlm =>
          have hm : nonExactValidMatch fmt f = false := by
            simp [nonExactValidMatch, readOk, hr]
          constructor <;> intro hc
          · simp only [List.countP_cons, hm, if_false, Bool.false_eq_true,
              Nat.add_zero] at hc
            simp only [find_output_from, if_neg hb, if_pos he, hr]
            exact (ih acc hrest).1 hc
          · intro hsome
            simp only [List.countP_cons, hm, if_false, Bool.false_eq_true,
              Nat.add_zero] at hc
            simp only [find_output_from, if_neg hb, if_pos he, hr]
            exact (ih acc hrest).2 hc hsome
        | failOs =>
          have hm : nonExactValidMatch fmt f = false := by
            simp [nonExactValidMatch, readOk, hr]
          constructor <;> intro hc
          · simp only [List.countP_cons, hm, if_false, Bool.false_eq_true,
              Nat.add_zero] at hc
            simp only [find_output_from, if_neg hb, if_pos he, hr]
            exact (ih acc hrest).1 hc
          · intro hsome
            simp only [List.countP_cons, hm, if_false, Bool.false_eq_true,
              Nat.add_zero] at hc
            simp only [find_output_from, if_neg hb, if_pos he, hr]
            exact (ih acc hrest).2 hc hsome
        | failOther => exact absurd hr hf
      · have hm : nonExactValidMatch fmt f = false := by
          simp [nonExactValidMatch, he]
        constructor <;> intro hc
        · simp only [List.countP_cons, hm, if_false, Bool.false_eq_true,
            Nat.add_zero] at hc
          simp only [find_output_from, if_neg hb, if_neg he]
          exact (ih acc hrest).1 hc
        · intro hsome
          simp only [List.countP_cons, hm, if_false, Bool.false_eq_true,
            Nat.add_zero] at hc
          simp only [find_output_from, if_neg hb, if_neg he]
          exact (ih acc hrest).2 hc hsome

/-- C1 amended: when a FileSet contains two or more readable candidates
whose extension matches the role and whose basename is not the canonical
`output.<fmt>` (and no candidate's read raises an exception other than the
two caught types), resolution raises the Ambiguity
`InvalidIngesterException` in every examination order. A candidate named
exactly `output.<fmt>`, however, never triggers the ambiguity check: it
silently overwrites any previously selected candidate, so with such a file
present resolution can be silently decided and is order dependent. -/
theorem claim_C1_ambiguity (fmt : String) (files : List PFile)
    (hother : ∀ f ∈ files, f.readRes ≠ ReadOutcome.failOther)
    (hcount : 2 ≤ files.countP (nonExactValidMatch fmt)) :
    find_output fmt files =
      Except.error (PyExc.invalidIngester
        ("Found more than one valid " ++ fmt ++ " file")) :=
  (find_output_from_ambiguity fmt files none hother).1 hcount

theorem claim_C1_ambiguity_witness :
    find_output "traj" [exTrajA, ⟨"b.traj", ReadOutcome.ok exAtomsH2⟩] =
      Except.error (PyExc.invalidIngester
        ("Found more than one valid " ++ "traj" ++ " file")) :=
  claim_C1_ambiguity "traj" [exTrajA, ⟨"b.traj", ReadOutcome.ok exAtomsH2⟩]
    (by decide) (by decide)

/-! ### C6: missing output -/

theorem find_output_from_no_match (fmt : String) :
    ∀ (files : List PFile) (acc : Option PFile),
      (∀ f ∈ files, matchesRole fmt f = false ∧
        f.readRes ≠ ReadOutcome.failOther) →
      find_output_from fmt files acc = Except.ok acc := by
  intro files
  induction files with
  | nil => intro acc _; rfl
  | cons f rest ih =>
    intro acc h
    obtain ⟨hm, hf⟩ := h f (by simp)
    have hrest : ∀ g ∈ rest, matchesRole fmt g = false ∧
        g.readRes ≠ ReadOutcome.failOther :=
      fun g hg => h g (List.mem_cons_of_mem f hg)
    simp only [matchesRole, Bool.or_eq_false_iff, Bool.and_eq_false_iff,
      decide_eq_false_iff_not] at hm
    obtain ⟨hb, he⟩ := hm
    by_cases hext : fileExt f = fmt
    · cases hr : f.readRes with
      | ok a =>
        exfalso
        rcases he with he | he
        · exact he hext
        · rw [readOk, hr] at he
          exact Bool.noConfusion he
      | failUlm =>
        simp only [find_output_from, if_neg hb, if_pos hext, hr]
        exact ih acc hrest
      | failOs =>
        simp only [find_output_from, if_neg hb, if_pos hext, hr]
        exact ih acc hrest
      | failOther => exact absurd hr hf
    · simp only [find_output_from, if_neg hb, if_neg hext]
      exact ih acc hrest

/-- C6 amended: when every file of the FileSet fails to match both the
"traj" role and the "txt" role, and no candidate's read attempt raises an
exception other than the two caught types, construction raises the
`InvalidIngesterException('Failed to find output file')` and no parser
state is produced. A candidate whose read raises any other exception makes
construction fail with that exception instead. -/
theorem claim_C6_missing_output (files : List PFile)
    (h : ∀ f ∈ files, matchesRole "traj" f = false ∧
      matchesRole "txt" f = false ∧ f.readRes ≠ ReadOutcome.failOther) :
    gpaw_init files =
      Except.error (PyExc.invalidIngester "Failed to find output file") := by
  have ht : find_output "traj" files = Except.ok none :=
    find_output_from_no_match "traj" files none
      (fun f hf => ⟨(h f hf).1, (h f hf).2.2⟩)
  have hx : find_output "txt" files = Except.ok none :=
    find_output_from_no_match "txt" files none
      (fun f hf => ⟨(h f hf).2.1, (h f hf).2.2⟩)
  simp only [gpaw_init, ht, hx]

theorem claim_C6_missing_output_witness :
    gpaw_init [⟨"README.md", ReadOutcome.failOs⟩] =
      Except.error (PyExc.invalidIngester "Failed to find output file") :=
  claim_C6_missing_output [⟨"README.md", ReadOutcome.failOs⟩] (by decide)

/-- A text-extension file whose content `ase.io.read` rejects with an
exception that is neither `InvalidULMFileError` nor `OSError`. -/
def exJunkTxt : PFile := ⟨"junk.txt", ReadOutcome.failOther⟩

/-- C6 counterexample: a FileSet whose single file matches neither role —
so zero files match — yet construction propagates the uncaught read
exception rather than raising the MissingOutput
`InvalidIngesterException('Failed to find output file')`. -/
theorem claim_C6_counterexample :
    matchesRole "traj" exJunkTxt = false ∧
    matchesRole "txt" exJunkTxt = false ∧
    gpaw_init [exJunkTxt] =
      Except.error (PyExc.readRaised ReadOutcome.failOther) ∧
    (Except.error (PyExc.readRaised ReadOutcome.failOther) :
        Except PyExc GpawParserState) ≠
      Except.error (PyExc.invalidIngester "Failed to find output file") := by
  refine ⟨by decide, by decide, rfl, fun h => ?_⟩
  exact PyExc.noConfusion (Except.error.inj h)

/-! ### C8: undecodable candidates -/

/-- C8 amended: during resolution, a non-canonically-named candidate whose
read attempt fails with one of the two caught exception types
(`InvalidULMFileError`, `OSError`) is treated as a non-match — it is
skipped and resolution continues over the remaining candidates exactly as
if it were absent. A read failure of any other type, however, propagates
as a fatal error of resolution itself. -/
theorem claim_C8_undecodable_skipped (fmt : String) (f : PFile)
    (rest : List PFile) (acc : Option PFile)
    (hb : f.base ≠ "output." ++ fmt) :
    ((f.readRes = ReadOutcome.failUlm ∨ f.readRes = ReadOutcome.failOs) →
      find_output_from fmt (f :: rest) acc = find_output_from fmt rest acc) ∧
    (fileExt f = fmt → f.readRes = ReadOutcome.failOther →
      find_output_from fmt (f :: rest) acc =
        Except.error (PyExc.readRaised ReadOutcome.failOther)) := by
  constructor
  · intro hr
    by_cases he : fileExt f = fmt
    · rcases hr with hr | hr <;>
        simp only [find_output_from, if_neg hb, if_pos he, hr]
    · simp only [find_output_from, if_neg hb, if_neg he]
  · intro he hr
    simp only [find_output_from, if_neg hb, if_pos he, hr]

/-- A trajectory-extension file whose content is not a valid ULM file. -/
def exBadTraj : PFile := ⟨"bad.traj", ReadOutcome.failUlm⟩

theorem claim_C8_undecodable_skipped_witness :
    find_output_from "traj" [exBadTraj] none = find_output_from "traj" [] none :=
  (claim_C8_undecodable_skipped "traj" exBadTraj [] none (by decide)).1
    (Or.inl rfl)

/-- C8 counterexample: a candidate whose read fails with an exception other
than the two caught types is not skipped — resolution itself fails fatally
instead of continuing and returning no match. -/
theorem claim_C8_counterexample :
    find_output "txt" [exJunkTxt] =
      Except.error (PyExc.readRaised ReadOutcome.failOther) ∧
    (Except.error (PyExc.readRaised ReadOutcome.failOther) :
        Except PyExc (Option PFile)) ≠ Except.ok none := by
  exact ⟨rfl, fun h => Except.noConfusion h⟩

/-! ## Temporary ase database side effects (`GpawParser.__init__`
`_write_temp_asedb`, gpaw.py lines 42-57; `get_total_energy`, lines
121-124; `get_max_force`, lines 224-227) -/

/-- A row of the temporary ase database: the fields that
`temp_db.get(id=1)` exposes to the embedded queries (the stored
calculator's total energy and maximum force). -/
structure AsedbRow where
  energy : ℚ
  fmax : ℚ
deriving DecidableEq, Repr

/-- Contents of the file `cit_temp_db.db` in the current working
directory: `none` when the file does not exist, otherwise its rows in id
order (id 1 first). This single path is shared by every `GpawParser`
instance in the process. -/
def TempDbFile : Type := Option (List AsedbRow)

/-- The row that `temp_db.write(self.atoms)` stores for a structure. -/
def rowOf (a : Atoms) : AsedbRow := ⟨a.energy, a.fmax⟩

/-- Embeds `_write_temp_asedb` (gpaw.py): if `cit_temp_db.db` exists it is
removed (`os.remove`); `ase.db.connect` then creates the file, and
`temp_db.write(self.atoms)` appends the instance's structure, which
receives id 1 in the fresh database. -/
def write_temp_asedb (a : Atoms) (fs : TempDbFile) : TempDbFile :=
  let afterRemove : TempDbFile := if (fs : Option (List AsedbRow)).isSome then none else fs
  let afterConnect : List AsedbRow := (afterRemove : Option (List AsedbRow)).getD []
  some (afterConnect ++ [rowOf a])

/-- Embeds `temp_db.get(id=1)`: the row with id 1, or a `KeyError` when the
database has no such row. -/
def temp_db_get_id1 (fs : TempDbFile) : Except PyErr AsedbRow :=
  match (fs : Option (List AsedbRow)) with
  | some (row :: _) => Except.ok row
  | _ => Except.error PyErr.keyError

/-- The instance state a constructed `GpawParser` keeps for these queries:
the structure read from its own FileSet (its `temp_db` handle is a
connection to the single shared path, so it carries no data of its own). -/
structure GpawInstance where
  atoms : Atoms
deriving DecidableEq, Repr

/-- The construction step of `GpawParser.__init__` that touches the shared
working-directory database: build the instance and overwrite
`cit_temp_db.db` with its structure. -/
def gpaw_construct (a : Atoms) (fs : TempDbFile) : GpawInstance × TempDbFile :=
  (⟨a⟩, write_temp_asedb a fs)

/-- Embeds `GpawParser.get_total_energy`: `self.temp_db.get(id=1).energy`,
read at query time from the shared `cit_temp_db.db` path. -/
def gpaw_get_total_energy (_self : GpawInstance) (fs : TempDbFile) :
    Except PyErr Property :=
  (temp_db_get_id1 fs).map fun row =>
    ⟨[PifScalar.ofQ row.energy], some "eV"⟩

/-- Embeds `GpawParser.get_max_force`: `self.temp_db.get(id=1).fmax`, read
at query time from the shared `cit_temp_db.db` path. -/
def gpaw_get_max_force (_self : GpawInstance) (fs : TempDbFile) :
    Except PyErr Property :=
  (temp_db_get_id1 fs).map fun row =>
    ⟨[PifScalar.ofQ row.fmax], some "eV/angstrom"⟩

/-- C10: constructing a `GpawParser` deletes any pre-existing
`cit_temp_db.db` and rewrites it with the new instance's structure as row
id 1; `get_total_energy` and `get_max_force` read that shared path at
query time, so after a second parser is constructed, both queries on the
first instance return the second instance's values — and, whenever the two
energies differ, no longer the first instance's own value. -/
theorem claim_C10_shared_temp_db (a1 a2 : Atoms) (fs0 : TempDbFile)
    (hne : a1.energy ≠ a2.energy) :
    (gpaw_construct a1 fs0).2 = some [rowOf a1] ∧
    (gpaw_construct a2 (gpaw_construct a1 fs0).2).2 = some [rowOf a2] ∧
    gpaw_get_total_energy (gpaw_construct a1 fs0).1
        (gpaw_construct a2 (gpaw_construct a1 fs0).2).2 =
      Except.ok ⟨[PifScalar.ofQ a2.energy], some "eV"⟩ ∧
    gpaw_get_max_force (gpaw_construct a1 fs0).1
        (gpaw_construct a2 (gpaw_construct a1 fs0).2).2 =
      Except.ok ⟨[PifScalar.ofQ a2.fmax], some "eV/angstrom"⟩ ∧
    gpaw_get_total_energy (gpaw_construct a1 fs0).1
        (gpaw_construct a2 (gpaw_construct a1 fs0).2).2 ≠
      Except.ok ⟨[PifScalar.ofQ a1.energy], some "eV"⟩ := by
  have hw : ∀ (a : Atoms) (fs : TempDbFile),
      write_temp_asedb a fs = some [rowOf a] := by
    intro a fs
    cases fs with
    | none => rfl
    | some rows => rfl
  refine ⟨hw a1 fs0, hw a2 _, ?_, ?_, ?_⟩
  · simp only [gpaw_construct, hw a2, gpaw_get_total_energy, temp_db_get_id1,
      Except.map, rowOf]
  · simp only [gpaw_construct, hw a2, gpaw_get_max_force, temp_db_get_id1,
      Except.map, rowOf]
  · simp only [gpaw_construct, hw a2, gpaw_get_total_energy, temp_db_get_id1,
      Except.map, rowOf]
    intro h
    have h1 := Except.ok.inj h
    have h2 := congrArg Property.scalars h1
    simp only at h2
    have h3 := List.head_eq_of_cons_eq h2
    exact hne (PifScalar.ofQ.inj h3).symm

/-- A second concrete structure with a different total energy. -/
def exAtomsLi : Atoms := ⟨["Li"], [6941 / 1000], 27, -3, 2⟩

theorem claim_C10_shared_temp_db_witness :
    exAtomsH2.energy ≠ exAtomsLi.energy ∧
    gpaw_get_total_energy (gpaw_construct exAtomsH2 none).1
        (gpaw_construct exAtomsLi (gpaw_construct exAtomsH2 none).2).2 =
      Except.ok ⟨[PifScalar.ofQ exAtomsLi.energy], some "eV"⟩ :=
  ⟨by norm_num [exAtomsH2, exAtomsLi],
   (claim_C10_shared_temp_db exAtomsH2 exAtomsLi none
      (by norm_num [exAtomsH2, exAtomsLi])).2.2.1⟩

end PifDft
